import Mathlib

/-
Verification of the unit-discovery estimator of `src/oildrop.py`
(`find_charge_unit`), shallowly embedded over the rationals.

The Python source is:

    def find_charge_unit(differences):
        non_zero_diffs = [round(d, 1) for d in differences if d > 0.1]
        best_unit = 0
        min_error = float("inf")
        for test_unit in np.arange(0.5, 3.0, 0.1):
            error = 0
            for diff in non_zero_diffs:
                ratio = diff / test_unit
                closest_int = round(ratio)
                error += abs(ratio - closest_int)
            if error < min_error:
                min_error = error
                best_unit = test_unit
        return round(best_unit, 1)

Reals are embedded as `ℚ` (exact arithmetic; the candidate grid and the
rounding to one decimal are exact in `ℚ`).  Python's `round(x)` rounds
half-to-even; Mathlib's `round` rounds half-up.  The two agree on
`|ratio - round(ratio)|` (both pick a nearest integer, and at an exact
half either choice gives the same absolute deviation 1/2), so the fit
score below is faithful to the source.
-/

namespace Oildrop

/-- Python's `round(x, 1)`: round to one decimal place.  Embedded as
rounding `10 * x` to the nearest integer and dividing by 10. -/
def round1 (x : ℚ) : ℚ := (round (10 * x) : ℤ) / 10

/-- The inner loop of `find_charge_unit`: for a candidate `test_unit`,
the accumulated error `Σ |diff / test_unit - round(diff / test_unit)|`
over the processed differences. -/
def fitScore (ds : List ℚ) (test_unit : ℚ) : ℚ :=
  (ds.map (fun d => |d / test_unit - (round (d / test_unit) : ℤ)|)).sum

/-- One iteration of the `for test_unit in np.arange(...)` loop.  The
accumulator is `(best_unit, min_error)`; `none` stands for the initial
`min_error = float("inf")` (any finite error beats it). -/
def searchStep (ds : List ℚ) (acc : ℚ × Option ℚ) (test_unit : ℚ) : ℚ × Option ℚ :=
  match acc with
  | (_, none) => (test_unit, some (fitScore ds test_unit))
  | (best_unit, some min_error) =>
      if fitScore ds test_unit < min_error then (test_unit, some (fitScore ds test_unit))
      else (best_unit, some min_error)

/-- `np.arange low high stp`: the values `low + i * stp` for
`0 ≤ i < ⌈(high - low) / stp⌉` (numpy's length formula). -/
def arange (low high stp : ℚ) : List ℚ :=
  (List.range (⌈(high - low) / stp⌉).toNat).map (fun i : ℕ => low + (i : ℚ) * stp)

/-- The list comprehension `[round(d, 1) for d in differences if d > 0.1]`. -/
def non_zero_diffs (differences : List ℚ) : List ℚ :=
  (differences.filter (fun d => decide ((1 : ℚ)/10 < d))).map round1

/-- `find_charge_unit` with the three literal arguments of its
`np.arange(0.5, 3.0, 0.1)` call exposed as parameters (the source fixes
them at `0.5, 3.0, 0.1`; `find_charge_unit` below instantiates them). -/
def find_charge_unit_grid (low high stp : ℚ) (differences : List ℚ) : ℚ :=
  round1 ((arange low high stp).foldl (searchStep (non_zero_diffs differences)) (0, none)).1

/-- The estimator `find_charge_unit` of `src/oildrop.py`. -/
def find_charge_unit (differences : List ℚ) : ℚ :=
  find_charge_unit_grid (1/2) 3 (1/10) differences

/-- The candidate grid `np.arange(0.5, 3.0, 0.1)` actually probed:
25 points `0.5, 0.6, ..., 2.9`. -/
def candidates : List ℚ := arange (1/2) 3 (1/10)

/-- `find_charge_unit` with the state of the caller's input sequence
threaded explicitly: the second component is the contents of
`differences` as the caller sees them after the call.  The source only
ever reads `differences` (the comprehension on its first line); no
statement assigns into it, so the translation returns it unchanged. -/
def find_charge_unit_st (differences : List ℚ) : ℚ × List ℚ :=
  let ds := non_zero_diffs differences
  (round1 ((arange (1/2) 3 (1/10)).foldl (searchStep ds) (0, none)).1, differences)

/-! ## Helper lemmas about the loop and the grid -/

/-- The fit score is a sum of absolute values, hence nonnegative. -/
lemma fitScore_nonneg (ds : List ℚ) (c : ℚ) : 0 ≤ fitScore ds c := by
  unfold fitScore
  apply List.sum_nonneg
  intro x hx
  obtain ⟨d, _, rfl⟩ := List.mem_map.mp hx
  exact abs_nonneg _

/-- If every processed difference is a natural multiple of `u ≠ 0`, the
fit score of `u` is zero. -/
lemma fitScore_eq_zero_of_multiples (ds : List ℚ) (u : ℚ) (hu : u ≠ 0)
    (h : ∀ d ∈ ds, ∃ n : ℕ, d = (n : ℚ) * u) : fitScore ds u = 0 := by
  unfold fitScore
  apply List.sum_eq_zero
  intro x hx
  obtain ⟨d, hd, rfl⟩ := List.mem_map.mp hx
  obtain ⟨n, rfl⟩ := h d hd
  rw [mul_div_assoc, div_self hu, mul_one, round_natCast]
  push_cast
  simp

/-- `round1` fixes every rational with denominator 10. -/
lemma round1_natCast_div_ten (z : ℕ) : round1 ((z : ℚ) / 10) = (z : ℚ) / 10 := by
  unfold round1
  rw [mul_comm, div_mul_cancel₀ _ (by norm_num : (10 : ℚ) ≠ 0), round_natCast,
    Int.cast_natCast]

/-- Behaviour of the search loop started from an installed best
candidate `b` (with `min_error = fitScore ds b`): over a strictly
ascending remaining candidate list, the final `best_unit` is the
first-encountered minimiser. -/
lemma foldl_searchStep_spec (ds : List ℚ) (cands : List ℚ) :
    ∀ b r : ℚ, cands.Pairwise (· < ·) → (∀ c ∈ cands, b < c) →
      r = (cands.foldl (searchStep ds) (b, some (fitScore ds b))).1 →
      (r = b ∨ r ∈ cands) ∧ fitScore ds r ≤ fitScore ds b ∧
      (∀ c ∈ cands, fitScore ds r ≤ fitScore ds c) ∧
      (fitScore ds b ≤ fitScore ds r → r = b) ∧
      (∀ c ∈ cands, fitScore ds c ≤ fitScore ds r → r ≤ c) := by
  induction cands with
  | nil =>
      intro b r _ _ hr
      rw [List.foldl_nil] at hr
      subst hr
      exact ⟨Or.inl rfl, le_refl _, by simp, fun _ => rfl, by simp⟩
  | cons c₀ rest ih =>
      intro b r hp hb hr
      obtain ⟨hp1, hp2⟩ := List.pairwise_cons.mp hp
      rw [List.foldl_cons] at hr
      by_cases hlt : fitScore ds c₀ < fitScore ds b
      · have hstep : searchStep ds (b, some (fitScore ds b)) c₀ = (c₀, some (fitScore ds c₀)) := by
          simp [searchStep, hlt]
        rw [hstep] at hr
        obtain ⟨hmem, hleb, hall, htie, hfirst⟩ := ih c₀ r hp2 hp1 hr
        refine ⟨Or.inr (List.mem_cons.mpr hmem), hleb.trans hlt.le, ?_, ?_, ?_⟩
        · intro c hc
          rcases List.mem_cons.mp hc with rfl | hc'
          · exact hleb
          · exact hall c hc'
        · intro hba
          exact absurd ((hleb.trans_lt hlt).trans_le hba) (lt_irrefl _)
        · intro c hc hcr
          rcases List.mem_cons.mp hc with rfl | hc'
          · exact le_of_eq (htie hcr)
          · exact hfirst c hc' hcr
      · have hbc : fitScore ds b ≤ fitScore ds c₀ := not_lt.mp hlt
        have hstep : searchStep ds (b, some (fitScore ds b)) c₀ = (b, some (fitScore ds b)) := by
          simp [searchStep, hlt]
        rw [hstep] at hr
        have hb' : ∀ c ∈ rest, b < c := fun c hc => hb c (List.mem_cons_of_mem _ hc)
        obtain ⟨hmem, hleb, hall, htie, hfirst⟩ := ih b r hp2 hb' hr
        refine ⟨?_, hleb, ?_, htie, ?_⟩
        · rcases hmem with h | h
          · exact Or.inl h
          · exact Or.inr (List.mem_cons_of_mem _ h)
        · intro c hc
          rcases List.mem_cons.mp hc with rfl | hc'
          · exact hleb.trans hbc
          · exact hall c hc'
        · intro c hc hcr
          rcases List.mem_cons.mp hc with rfl | hc'
          · rw [htie (hbc.trans hcr)]
            exact (hb _ (List.mem_cons_self _ _)).le
          · exact hfirst c hc' hcr

/-- The estimator's result is a probed candidate, minimises the fit
score over the processed (filtered-and-rounded) differences, and is the
lowest candidate among the minimisers (the loop's first-wins tie-break). -/
lemma find_charge_unit_mem_min (diffs : List ℚ) :
    find_charge_unit diffs ∈ candidates ∧
    (∀ c ∈ candidates,
      fitScore (non_zero_diffs diffs) (find_charge_unit diffs)
        ≤ fitScore (non_zero_diffs diffs) c) ∧
    (∀ c ∈ candidates,
      fitScore (non_zero_diffs diffs) c
          ≤ fitScore (non_zero_diffs diffs) (find_charge_unit diffs) →
        find_charge_unit diffs ≤ c) := by
  have hcand : candidates = (1/2 : ℚ) :: candidates.tail := by with_unfolding_all decide
  have hr0 : (candidates.foldl (searchStep (non_zero_diffs diffs)) (0, none)).1
      = (candidates.tail.foldl (searchStep (non_zero_diffs diffs))
          ((1/2 : ℚ), some (fitScore (non_zero_diffs diffs) (1/2)))).1 := by
    conv_lhs => rw [hcand]
    rfl
  obtain ⟨hmem, hleb, hall, htie, hfirst⟩ :=
    foldl_searchStep_spec (non_zero_diffs diffs) candidates.tail (1/2) _
      (by with_unfolding_all decide) (by with_unfolding_all decide) rfl
  have hmemc : (candidates.tail.foldl (searchStep (non_zero_diffs diffs))
      ((1/2 : ℚ), some (fitScore (non_zero_diffs diffs) (1/2)))).1 ∈ candidates := by
    rcases hmem with h | h
    · rw [h, hcand]
      exact List.mem_cons_self _ _
    · exact List.tail_subset _ h
  have hfix : ∀ c ∈ candidates, round1 c = c := by with_unfolding_all decide
  have hfu : find_charge_unit diffs
      = (candidates.tail.foldl (searchStep (non_zero_diffs diffs))
          ((1/2 : ℚ), some (fitScore (non_zero_diffs diffs) (1/2)))).1 := by
    show round1 (candidates.foldl (searchStep (non_zero_diffs diffs)) (0, none)).1 = _
    rw [hr0]
    exact hfix _ hmemc
  rw [hfu]
  refine ⟨hmemc, ?_, ?_⟩
  · intro c hc
    rw [hcand] at hc
    rcases List.mem_cons.mp hc with rfl | hc'
    · exact hleb
    · exact hall c hc'
  · intro c hc hcr
    rw [hcand] at hc
    rcases List.mem_cons.mp hc with rfl | hc'
    · exact le_of_eq (htie hcr)
    · exact hfirst c hc' hcr

/-! ## Claims -/

/-- Claim C1, counterexample: at input `[4.86]` the claim as stated
fails.  The only retained (post-filter) difference is the raw value
`4.86`; the code scores the *rounded* difference `4.9` and returns
`0.7`, its unique exact grid divisor (every other candidate scores at
least `0.04` more on `4.9`, so the selection is stable under the
source's floating point as well).  But on the raw retained difference
`4.86` the probed candidate `2.4` has fit score `0.025`, strictly
smaller than the score `2/35 ≈ 0.057` of the returned `0.7` — so the
returned value does not minimise the fit score over the raw retained
differences. -/
theorem C1_counterexample :
    find_charge_unit [(243 : ℚ)/50] = 7/10 ∧ ((12 : ℚ)/5) ∈ candidates ∧
    fitScore [(243 : ℚ)/50] (12/5) < fitScore [(243 : ℚ)/50] (7/10) := by
  with_unfolding_all decide

/-- Claim C1 (corrected): for every input with at least one difference
above the threshold `0.1`, the estimator returns the grid candidate
minimising the fit score over the retained differences *after each is
rounded to one decimal place* (not over the raw retained differences),
with ties broken in favour of the lowest candidate value. -/
theorem C1_theorem (diffs : List ℚ) (h : ∃ d ∈ diffs, (1 : ℚ)/10 < d) :
    find_charge_unit diffs ∈ candidates ∧
    (∀ c ∈ candidates,
      fitScore (non_zero_diffs diffs) (find_charge_unit diffs)
        ≤ fitScore (non_zero_diffs diffs) c) ∧
    (∀ c ∈ candidates,
      fitScore (non_zero_diffs diffs) c
          ≤ fitScore (non_zero_diffs diffs) (find_charge_unit diffs) →
        find_charge_unit diffs ≤ c) :=
  find_charge_unit_mem_min diffs

/-- Claim C1, witness at the concrete input `[1.2]`. -/
theorem C1_witness :
    (∃ d ∈ [(6 : ℚ)/5], (1 : ℚ)/10 < d) ∧
    (find_charge_unit [(6 : ℚ)/5] ∈ candidates ∧
     (∀ c ∈ candidates,
       fitScore (non_zero_diffs [(6 : ℚ)/5]) (find_charge_unit [(6 : ℚ)/5])
         ≤ fitScore (non_zero_diffs [(6 : ℚ)/5]) c) ∧
     (∀ c ∈ candidates,
       fitScore (non_zero_diffs [(6 : ℚ)/5]) c
           ≤ fitScore (non_zero_diffs [(6 : ℚ)/5]) (find_charge_unit [(6 : ℚ)/5]) →
         find_charge_unit [(6 : ℚ)/5] ≤ c)) :=
  ⟨by with_unfolding_all decide, C1_theorem [(6 : ℚ)/5] (by with_unfolding_all decide)⟩

/-- Claim C2, counterexample: take `k = (1, 2)` and true unit
`u = 1.2` (a probed grid point), so `differences = [0, 1.2]`.  The
estimator returns `0.6`, not the grid point nearest `u` (which is `1.2`
itself): `0.6` also divides every difference exactly and is encountered
first. -/
theorem C2_counterexample :
    find_charge_unit [0, (6 : ℚ)/5] = 3/5 ∧ ¬ |(3 : ℚ)/5 - 6/5| ≤ 1/20 := by
  with_unfolding_all decide

/-- Claim C2 (corrected): for positive integers `k_i` with minimum `m`
and a true unit `u` that is one of the probed grid points, on
`differences = [(k_i - m) * u]` the estimator returns the *first*
(lowest) probed candidate whose fit score is zero — the smallest grid
candidate of which every retained difference is an exact integer
multiple — which need not be the grid point nearest `u`. -/
theorem C2_theorem (ks : List ℕ) (m j : ℕ) (u : ℚ) (diffs : List ℚ)
    (hm : ∀ k ∈ ks, m ≤ k) (hj : j < 25)
    (hu : u = 1/2 + (j : ℚ) * (1/10))
    (hdiffs : diffs = ks.map (fun k : ℕ => ((k : ℚ) - (m : ℚ)) * u)) :
    fitScore (non_zero_diffs diffs) (find_charge_unit diffs) = 0 ∧
    find_charge_unit diffs ∈ candidates ∧
    (∀ c ∈ candidates,
      fitScore (non_zero_diffs diffs) c = 0 → find_charge_unit diffs ≤ c) := by
  obtain ⟨hmem, hmin, hfirst⟩ := find_charge_unit_mem_min diffs
  have hupos : (0 : ℚ) < u := by
    rw [hu]
    positivity
  have humem : u ∈ candidates := by
    have hc : candidates = (List.range 25).map (fun i : ℕ => (1 : ℚ)/2 + (i : ℚ) * (1/10)) := by
      with_unfolding_all decide
    rw [hc, hu]
    exact List.mem_map_of_mem _ (List.mem_range.mpr hj)
  have hz : fitScore (non_zero_diffs diffs) u = 0 := by
    apply fitScore_eq_zero_of_multiples _ _ (ne_of_gt hupos)
    intro d hd
    simp only [non_zero_diffs] at hd
    obtain ⟨d₀, hd₀f, rfl⟩ := List.mem_map.mp hd
    have hd₀ : d₀ ∈ diffs := (List.mem_filter.mp hd₀f).1
    rw [hdiffs] at hd₀
    obtain ⟨k, hk, rfl⟩ := List.mem_map.mp hd₀
    refine ⟨k - m, ?_⟩
    have hcast : ((k : ℚ) - (m : ℚ)) = ((k - m : ℕ) : ℚ) := (Nat.cast_sub (hm k hk)).symm
    rw [hcast]
    have hform : ((k - m : ℕ) : ℚ) * u = (((k - m) * (5 + j) : ℕ) : ℚ) / 10 := by
      rw [hu]
      push_cast
      ring
    rw [hform, round1_natCast_div_ten, ← hform]
  have hrz : fitScore (non_zero_diffs diffs) (find_charge_unit diffs) = 0 :=
    le_antisymm (hz ▸ hmin u humem) (fitScore_nonneg _ _)
  exact ⟨hrz, hmem, fun c hc hc0 => hfirst c hc (by rw [hc0, hrz])⟩

/-- Claim C2, witness at `k = (1, 2)`, `m = 1`, `u = 1.2`. -/
theorem C2_witness :
    (∀ k ∈ [1, 2], 1 ≤ k) ∧
    (fitScore (non_zero_diffs [0, (6 : ℚ)/5]) (find_charge_unit [0, (6 : ℚ)/5]) = 0 ∧
     find_charge_unit [0, (6 : ℚ)/5] ∈ candidates ∧
     (∀ c ∈ candidates,
       fitScore (non_zero_diffs [0, (6 : ℚ)/5]) c = 0 → find_charge_unit [0, (6 : ℚ)/5] ≤ c)) :=
  ⟨by decide,
   C2_theorem [1, 2] 1 7 ((6 : ℚ)/5) [0, (6 : ℚ)/5] (by decide) (by norm_num)
     (by norm_num) (by with_unfolding_all decide)⟩

/-- Claim C3, counterexample: on `[1.2, 2.4, 3.6, 4.8]` the estimator
returns `0.6`, not `1.2`. -/
theorem C3_counterexample :
    find_charge_unit [6/5, 12/5, 18/5, 24/5] = 3/5 ∧ (3 : ℚ)/5 ≠ 6/5 := by
  with_unfolding_all decide

/-- Claim C3 (corrected): on `[1.2, 2.4, 3.6, 4.8]` with the default
grid, the estimator returns `0.6`: candidate `0.6` also achieves fit
score `0` (every difference is an exact integer multiple of `0.6`), and
the first-encountered tie-break prefers it over `1.2`.  The claim's
premise that every candidate other than `1.2` scores strictly above
zero is false. -/
theorem C3_theorem :
    find_charge_unit [6/5, 12/5, 18/5, 24/5] = 3/5 ∧
    fitScore (non_zero_diffs [6/5, 12/5, 18/5, 24/5]) (3/5) = 0 ∧
    fitScore (non_zero_diffs [6/5, 12/5, 18/5, 24/5]) (6/5) = 0 ∧
    (3 : ℚ)/5 < 6/5 := by
  with_unfolding_all decide

/-- Claim C4, counterexample: on the empty input (and on an input
entirely below the threshold) the estimator does not fail — no
`InsufficientDataError` exists anywhere in the source — it returns
`0.5`. -/
theorem C4_counterexample :
    find_charge_unit [] = 1/2 ∧ find_charge_unit [(1 : ℚ)/20] = 1/2 := by
  with_unfolding_all decide

/-- Claim C4 (corrected): if every input value is at most the threshold
`0.1` (in particular for the empty input), nothing survives the filter,
every candidate scores `0` on the empty retained list, and the
estimator returns the first probed candidate `0.5` rather than raising
an error. -/
theorem C4_theorem (diffs : List ℚ) (h : ∀ d ∈ diffs, d ≤ 1/10) :
    find_charge_unit diffs = 1/2 := by
  have hfil : diffs.filter (fun d => decide ((1 : ℚ)/10 < d)) = [] := by
    rw [List.filter_eq_nil_iff]
    intro a ha
    simp only [decide_eq_true_eq, not_lt]
    exact h a ha
  have hds : non_zero_diffs diffs = [] := by
    unfold non_zero_diffs
    rw [hfil]
    rfl
  unfold find_charge_unit find_charge_unit_grid
  rw [hds]
  with_unfolding_all decide

/-- Claim C4, witness at the empty input. -/
theorem C4_witness :
    (∀ d ∈ ([] : List ℚ), d ≤ 1/10) ∧ find_charge_unit [] = 1/2 :=
  ⟨by decide, C4_theorem [] (by decide)⟩

/-- Claim C5 (confirmed): whenever at least one difference survives the
filter, the returned value is exactly one of the probed grid points
`0.5 + i * 0.1`, never an interpolated value. -/
theorem C5_theorem (diffs : List ℚ) (h : ∃ d ∈ diffs, (1 : ℚ)/10 < d) :
    ∃ i : ℕ, find_charge_unit diffs = 1/2 + (i : ℚ) * (1/10) := by
  obtain ⟨hmem, -, -⟩ := find_charge_unit_mem_min diffs
  have hc : candidates = (List.range 25).map (fun i : ℕ => (1 : ℚ)/2 + (i : ℚ) * (1/10)) := by
    with_unfolding_all decide
  rw [hc] at hmem
  obtain ⟨i, -, hi⟩ := List.mem_map.mp hmem
  exact ⟨i, hi.symm⟩

/-- Claim C5, witness at the concrete input `[1.2]`. -/
theorem C5_witness :
    (∃ d ∈ [(12 : ℚ)/5], (1 : ℚ)/10 < d) ∧
    (∃ i : ℕ, find_charge_unit [(12 : ℚ)/5] = 1/2 + (i : ℚ) * (1/10)) :=
  ⟨by with_unfolding_all decide, C5_theorem [(12 : ℚ)/5] (by with_unfolding_all decide)⟩

/-- Claim C6, counterexample: a difference exactly equal to the
threshold `0.1` does not participate: the filter `d > 0.1` discards it,
so on input `[0.1]` the retained list is empty and the estimator
returns `0.5` — whereas if `0.1` were retained, the search on `[0.1]`
would return `2.9`. -/
theorem C6_counterexample :
    non_zero_diffs [(1 : ℚ)/10] = [] ∧ find_charge_unit [(1 : ℚ)/10] = 1/2 ∧
    round1 ((candidates.foldl (searchStep [(1 : ℚ)/10]) (0, none)).1) = 29/10 := by
  with_unfolding_all decide

/-- Claim C6 (corrected): the pre-filter excludes exactly the
differences less than *or equal to* `0.1`: every difference strictly
greater than `0.1` participates (rounded to one decimal), and every
difference at most `0.1` — including one exactly equal to `0.1` — is
discarded. -/
theorem C6_theorem (diffs : List ℚ) (d : ℚ) (hd : d ∈ diffs) :
    ((1 : ℚ)/10 < d → round1 d ∈ non_zero_diffs diffs) ∧
    (d ≤ 1/10 → d ∉ diffs.filter (fun x => decide ((1 : ℚ)/10 < x))) := by
  constructor
  · intro hlt
    unfold non_zero_diffs
    exact List.mem_map_of_mem round1 (List.mem_filter.mpr ⟨hd, by simpa using hlt⟩)
  · intro hle hmem
    have hx := (List.mem_filter.mp hmem).2
    simp only [decide_eq_true_eq] at hx
    exact absurd hx (not_lt.mpr hle)

/-- Claim C6, witness at input `[0.2]`. -/
theorem C6_witness :
    ((1 : ℚ)/5 ∈ [(1 : ℚ)/5]) ∧
    (((1 : ℚ)/10 < (1 : ℚ)/5 → round1 ((1 : ℚ)/5) ∈ non_zero_diffs [(1 : ℚ)/5]) ∧
     ((1 : ℚ)/5 ≤ 1/10 → (1 : ℚ)/5 ∉ List.filter (fun x => decide ((1 : ℚ)/10 < x)) [(1 : ℚ)/5])) :=
  ⟨by with_unfolding_all decide, C6_theorem [(1 : ℚ)/5] ((1 : ℚ)/5) (by with_unfolding_all decide)⟩

/-- Claim C7, counterexample: called with the malformed grid
`search_low = 2, search_high = 1, search_step = 0.1` the estimator does
not raise — no `InvalidRangeError` exists anywhere in the source — it
returns the value `0`. -/
theorem C7_counterexample :
    find_charge_unit_grid 2 1 (1/10) [(6 : ℚ)/5] = 0 := by
  with_unfolding_all decide

/-- Claim C7 (corrected): the source performs no validation of the
search grid.  When `search_low ≥ search_high` (with a positive step)
the `np.arange` candidate list is empty, the loop body never runs, and
the estimator returns `0` — the initial `best_unit` — rather than
raising an error. -/
theorem C7_theorem (low high stp : ℚ) (diffs : List ℚ) (h1 : high ≤ low) (h2 : 0 < stp) :
    find_charge_unit_grid low high stp diffs = 0 := by
  have hra : arange low high stp = [] := by
    unfold arange
    have hnp : (high - low) / stp ≤ 0 :=
      div_nonpos_of_nonpos_of_nonneg (sub_nonpos.mpr h1) h2.le
    have hcl : ⌈(high - low) / stp⌉ ≤ 0 := Int.ceil_le.mpr (by exact_mod_cast hnp)
    rw [Int.toNat_of_nonpos hcl]
    rfl
  unfold find_charge_unit_grid
  rw [hra, List.foldl_nil]
  with_unfolding_all decide

/-- Claim C7, witness at grid `(2, 1, 0.1)` and input `[2.4]`. -/
theorem C7_witness :
    ((1 : ℚ) ≤ 2) ∧ ((0 : ℚ) < 1/10) ∧
    find_charge_unit_grid 2 1 (1/10) [(12 : ℚ)/5] = 0 :=
  ⟨by norm_num, by norm_num,
   C7_theorem 2 1 (1/10) [(12 : ℚ)/5] (by norm_num) (by norm_num)⟩

/-- Claim C8 (confirmed): the estimator never mutates its input.  The
embedding `find_charge_unit_st` threads the state of the caller's
sequence explicitly (the source's only access to `differences` is the
read in its first-line list comprehension; no statement assigns into
it), and after the call the sequence is element-for-element the one
passed in, while the first component is the ordinary result. -/
theorem C8_theorem (diffs : List ℚ) :
    (find_charge_unit_st diffs).2 = diffs ∧
    (find_charge_unit_st diffs).1 = find_charge_unit diffs :=
  ⟨rfl, rfl⟩

/-- Claim C9 (confirmed): the estimator is a function of the retained
differences after rounding each to one decimal place: two inputs whose
filtered-and-rounded difference lists agree yield the same estimate. -/
theorem C9_theorem (xs ys : List ℚ) (h : non_zero_diffs xs = non_zero_diffs ys) :
    find_charge_unit xs = find_charge_unit ys := by
  unfold find_charge_unit find_charge_unit_grid
  rw [h]

/-- Claim C9, witness: `[1.21]` and `[1.2]` agree after filtering and
rounding, and get the same estimate. -/
theorem C9_witness :
    non_zero_diffs [(121 : ℚ)/100] = non_zero_diffs [(6 : ℚ)/5] ∧
    find_charge_unit [(121 : ℚ)/100] = find_charge_unit [(6 : ℚ)/5] :=
  ⟨by with_unfolding_all decide, C9_theorem _ _ (by with_unfolding_all decide)⟩

/-- Claim C10 (confirmed): with at least one usable difference, the
estimate lies between `0.5` and `2.9`; the end-exclusive grid never
probes `3.0`. -/
theorem C10_theorem (diffs : List ℚ) (h : ∃ d ∈ diffs, (1 : ℚ)/10 < d) :
    1/2 ≤ find_charge_unit diffs ∧ find_charge_unit diffs ≤ 29/10 ∧
    (3 : ℚ) ∉ candidates := by
  obtain ⟨hmem, -, -⟩ := find_charge_unit_mem_min diffs
  have hb : ∀ c ∈ candidates, (1 : ℚ)/2 ≤ c ∧ c ≤ 29/10 := by
    with_unfolding_all decide
  exact ⟨(hb _ hmem).1, (hb _ hmem).2, by with_unfolding_all decide⟩

/-- Claim C10, witness at the concrete input `[4.8]`. -/
theorem C10_witness :
    (∃ d ∈ [(24 : ℚ)/5], (1 : ℚ)/10 < d) ∧
    (1/2 ≤ find_charge_unit [(24 : ℚ)/5] ∧ find_charge_unit [(24 : ℚ)/5] ≤ 29/10 ∧
     (3 : ℚ) ∉ candidates) :=
  ⟨by with_unfolding_all decide, C10_theorem [(24 : ℚ)/5] (by with_unfolding_all decide)⟩

end Oildrop
